import Mathlib

/-!
Shallow embedding of the Conan packaging recipe `conanfile.py` of the
fossil-io repository (class FossilIoConan), together with theorems that
settle the claims about it.

The recipe is declarative glue: each method is modelled as a function from
the recipe object (the fields of self that the method bodies read) to a
trace of effects.  The Python class body contains two definitions of the
method named source; this is modelled explicitly as an ordered list of
(name, body) bindings, with the Python rule that the last binding of a name
wins.
-/

namespace Conanfile

/-- Declared package version (class attribute version = "0.2.4"). -/
def recipeVersion : String := "0.2.4"

/-- Declared project URL (class attribute url). -/
def recipeUrl : String := "https://github.com/fossillogic/fossil-io"

/-- Declared option table: options = {"shared": [True, False]}. -/
def options : List (String × List Bool) := [("shared", [true, false])]

/-- Declared defaults: default_options = {"shared": False}. -/
def default_options : List (String × Bool) := [("shared", false)]

/-- A filesystem path, as a list of components. -/
abbrev Path := List String

/-- The fields of the recipe object that the method bodies read. -/
structure ConanSelf where
  version : String
  url : String
  shared : Bool
  package_folder : Path
deriving DecidableEq

/-- The recipe object as declared, for a given value of the shared option
and package folder. -/
def mkSelf (shared : Bool) (pf : Path) : ConanSelf :=
  { version := recipeVersion, url := recipeUrl, shared := shared,
    package_folder := pf }

/-- The primitive effects a method body can perform. -/
inductive Effect where
  | setSourceFolder (p : String)
  | setBuildFolder (p : String)
  | mesonToolchainGenerate
  | runCmd (cmd : String)
  | mesonConfigure
  | mesonBuild
  | mesonInstall
  | copyPattern (pattern : String) (src : Path) (dst : Path)
  | setLibs (libs : List String)
  | setIncludedirs (dirs : List String)
deriving DecidableEq

/-- Source directory of the header copy in package():
"code/logic/fossil/io". -/
def srcHeaderPath : Path := ["code", "logic", "fossil", "io"]

/-- Destination of the header copy in package():
os.path.join(self.package_folder, "include", "fossil", "io"). -/
def includeDstPath (pf : Path) : Path := pf ++ ["include", "fossil", "io"]

/-- Method layout (lines 22-25): sets folders.source to "." and
folders.build to "builddir". -/
def layout (_ : ConanSelf) : List Effect :=
  [.setSourceFolder ".", .setBuildFolder "builddir"]

/-- Method generate (lines 27-30): generates the Meson toolchain files. -/
def generate (_ : ConanSelf) : List Effect :=
  [.mesonToolchainGenerate]

/-- Method build (lines 32-36): meson.configure() then meson.build(). -/
def build (_ : ConanSelf) : List Effect :=
  [.mesonConfigure, .mesonBuild]

/-- First definition of method source (lines 38-39):
self.run of the f-string "git clone --branch v{version} --depth 1 {url}". -/
def sourceFirst (s : ConanSelf) : List Effect :=
  [.runCmd ("git clone --branch v" ++ s.version ++ " --depth 1 " ++ s.url)]

/-- Method package (lines 41-49): meson.install() then
copy(self, "*.h", src="code/logic/fossil/io", dst=join(package_folder,
"include", "fossil", "io")). -/
def package (s : ConanSelf) : List Effect :=
  [.mesonInstall,
   .copyPattern "*.h" srcHeaderPath (includeDstPath s.package_folder)]

/-- Method package_info (lines 51-54): cpp_info.libs = ["fossil_io"] and
cpp_info.includedirs = ["include"]. -/
def package_info (_ : ConanSelf) : List Effect :=
  [.setLibs ["fossil_io"], .setIncludedirs ["include"]]

/-- Second definition of method source (lines 56-57):
self.run of the f-string "git clone --branch v{version} {url}". -/
def sourceSecond (s : ConanSelf) : List Effect :=
  [.runCmd ("git clone --branch v" ++ s.version ++ " " ++ s.url)]

/-- Names for the seven def statements of the class body, in order. -/
inductive MethodDef where
  | layoutDef
  | generateDef
  | buildDef
  | sourceDefFirst
  | packageDef
  | packageInfoDef
  | sourceDefSecond
deriving DecidableEq

/-- The body of each def statement. -/
def interp : MethodDef → ConanSelf → List Effect
  | .layoutDef => layout
  | .generateDef => generate
  | .buildDef => build
  | .sourceDefFirst => sourceFirst
  | .packageDef => package
  | .packageInfoDef => package_info
  | .sourceDefSecond => sourceSecond

/-- The class body of FossilIoConan as the ordered sequence of its def
statements.  The name source appears twice, at lines 38-39 and again at
lines 56-57. -/
def classBody : List (String × MethodDef) :=
  [("layout", .layoutDef), ("generate", .generateDef), ("build", .buildDef),
   ("source", .sourceDefFirst), ("package", .packageDef),
   ("package_info", .packageInfoDef), ("source", .sourceDefSecond)]

/-- Python class-body semantics: every def statement rebinds its name in
the class namespace, so the last binding of a name is the one in effect. -/
def classBind (n : String) : Option MethodDef :=
  ((classBody.filter (fun p => p.1 == n)).getLast?).map (fun p => p.2)

/-- The effect trace of the method bound to a name on the finished class
(empty when no method of that name exists). -/
def boundTrace (n : String) (s : ConanSelf) : List Effect :=
  match classBind n with
  | some m => interp m s
  | none => []

/-- Whether an effect is a delegation to an external build or
version-control tool, or a file-copy operation. -/
def isDelegation : Effect → Bool
  | .runCmd _ => true
  | .mesonToolchainGenerate => true
  | .mesonConfigure => true
  | .mesonBuild => true
  | .mesonInstall => true
  | .copyPattern _ _ _ => true
  | _ => false

/-- Glob matching over characters with explicit fuel; every recursive call
shrinks the combined length of pattern and input by at least one, so fuel
above that combined length never runs out. -/
def globMatchFuel : Nat → List Char → List Char → Bool
  | 0, _, _ => false
  | _ + 1, [], cs => cs.isEmpty
  | fuel + 1, p :: ps, [] => p == '*' && globMatchFuel fuel ps []
  | fuel + 1, p :: ps, c :: cs =>
    if p == '*' then
      globMatchFuel fuel ps (c :: cs) || globMatchFuel fuel (p :: ps) cs
    else p == c && globMatchFuel fuel ps cs

/-- Glob matching over characters, with the star wildcard matching any
(possibly empty) sequence of characters, as fnmatch does for the patterns
this recipe uses. -/
def globMatch (ps cs : List Char) : Bool :=
  globMatchFuel (ps.length + cs.length + 1) ps cs

/-- Split a character list on spaces, accumulating the current word. -/
def splitSpaceAux (acc : List Char) : List Char → List (List Char)
  | [] => [acc.reverse]
  | c :: cs =>
    if c == ' ' then acc.reverse :: splitSpaceAux [] cs
    else splitSpaceAux (c :: acc) cs

/-- The argument words of a shell command string, split on spaces. -/
def argvOf (s : String) : List String :=
  (splitSpaceAux [] s.toList).map (fun w => String.mk w)

/-- Last component of a path (the file name). -/
def baseName (p : Path) : String := p.getLast?.getD ""

/-- The conan copy helper: every file below src whose file name matches the
glob pattern is copied below dst, keeping its relative path.  The
filesystem is a list of file paths; the result appends the copies. -/
def copyFiles (pattern : String) (src dst : Path) (fs : List Path) :
    List Path :=
  fs ++ (fs.filter
      (fun f => src.isPrefixOf f
        && globMatch pattern.toList (baseName f).toList)).map
    (fun f => dst ++ f.drop src.length)

/-- Filesystem interpretation of one effect.  The meson install step is an
external tool, taken as an arbitrary transformation of the filesystem. -/
def applyFs (install : List Path → List Path) :
    List Path → Effect → List Path
  | fs, .mesonInstall => install fs
  | fs, .copyPattern pat src dst => copyFiles pat src dst fs
  | fs, _ => fs

/-- Run a trace of effects on a filesystem. -/
def runFs (install : List Path → List Path) (t : List Effect)
    (fs : List Path) : List Path :=
  t.foldl (applyFs install) fs

/-- The cpp_info record the recipe fills in package_info. -/
structure CppInfo where
  libs : List String
  includedirs : List String
deriving DecidableEq

/-- Metadata interpretation of one effect. -/
def applyInfo : CppInfo → Effect → CppInfo
  | ci, .setLibs ls => { ci with libs := ls }
  | ci, .setIncludedirs ds => { ci with includedirs := ds }
  | ci, _ => ci

/-- Run a trace of effects on a cpp_info record. -/
def runInfo (t : List Effect) (ci : CppInfo) : CppInfo :=
  t.foldl applyInfo ci

/-- The folder layout the recipe fills in layout. -/
structure Folders where
  source : String
  build : String
deriving DecidableEq

/-- Folder interpretation of one effect. -/
def applyFolders : Folders → Effect → Folders
  | fo, .setSourceFolder p => { fo with source := p }
  | fo, .setBuildFolder p => { fo with build := p }
  | fo, _ => fo

/-- Run a trace of effects on a folder layout. -/
def runFolders (t : List Effect) (fo : Folders) : Folders :=
  t.foldl applyFolders fo

/-- Run a trace under an environment that may fail any step: the first
failing step aborts the run with its error, untouched. -/
def runEffects (env : Effect → Except String Unit) :
    List Effect → Except String Unit
  | [] => .ok ()
  | e :: es =>
    match env e with
    | .ok _ => runEffects env es
    | .error msg => .error msg

/-- Substring test over character lists. -/
def containsSub (needle : List Char) : List Char → Bool
  | [] => needle.isEmpty
  | c :: t => needle.isPrefixOf (c :: t) || containsSub needle t

/-- A file below src whose file name matches the pattern is present, under
dst at its relative path, in the result of copyFiles. -/
theorem mem_copyFiles_of (pattern : String) (src dst : Path)
    (fs : List Path) (f : Path)
    (hmem : f ∈ fs) (hpre : src.isPrefixOf f = true)
    (hglob : globMatch pattern.toList (baseName f).toList = true) :
    dst ++ f.drop src.length ∈ copyFiles pattern src dst fs := by
  unfold copyFiles
  refine List.mem_append_right _ ?_
  refine List.mem_map_of_mem _ ?_
  rw [List.mem_filter]
  refine ⟨hmem, ?_⟩
  rw [hpre, hglob]
  rfl

/-- A run of a trace whose initial steps succeed and whose next step fails
with some message yields exactly that error. -/
theorem runEffects_append_error (env : Effect → Except String Unit)
    (t1 : List Effect) (e : Effect) (t2 : List Effect) (msg : String)
    (hok : ∀ x ∈ t1, env x = .ok ()) (herr : env e = .error msg) :
    runEffects env (t1 ++ e :: t2) = .error msg := by
  induction t1 with
  | nil => simp [runEffects, herr]
  | cons a t ih =>
    have ha : env a = .ok () := hok a (by simp)
    have ht : ∀ x ∈ t, env x = .ok () := fun x hx => hok x (by simp [hx])
    simp only [List.cons_append, runEffects, ha]
    exact ih ht

/-- Claim C1: after a successful run of the package operation, every header
file whose name matches the glob star-dot-h under the declared source path
code/logic/fossil/io is present in the package include tree under the path
include/fossil/io. -/
theorem package_copies_all_headers
    (install : List Path → List Path) (shared : Bool) (pf : Path)
    (fs : List Path) (f : Path)
    (hmem : f ∈ install fs)
    (hunder : srcHeaderPath.isPrefixOf f = true)
    (hmatch : globMatch "*.h".toList (baseName f).toList = true) :
    includeDstPath pf ++ f.drop srcHeaderPath.length ∈
      runFs install (boundTrace "package" (mkSelf shared pf)) fs := by
  have htrace : boundTrace "package" (mkSelf shared pf) =
      [.mesonInstall, .copyPattern "*.h" srcHeaderPath (includeDstPath pf)] :=
    rfl
  rw [htrace]
  show includeDstPath pf ++ f.drop srcHeaderPath.length ∈
    copyFiles "*.h" srcHeaderPath (includeDstPath pf) (install fs)
  exact mem_copyFiles_of "*.h" srcHeaderPath (includeDstPath pf)
    (install fs) f hmem hunder hmatch

/-- Witness for C1 at a concrete filesystem holding one header file. -/
theorem package_copies_all_headers_witness :
    includeDstPath ["pkg"] ++
        (["code", "logic", "fossil", "io", "file.h"].drop
          srcHeaderPath.length) ∈
      runFs id (boundTrace "package" (mkSelf false ["pkg"]))
        [["code", "logic", "fossil", "io", "file.h"]] :=
  package_copies_all_headers id false ["pkg"]
    [["code", "logic", "fossil", "io", "file.h"]]
    ["code", "logic", "fossil", "io", "file.h"]
    (by decide) (by decide) (by decide)

/-- Claim C2: the package_info operation always emits metadata with exactly
one library name, fossil_io, and exactly one include directory, include. -/
theorem package_info_single_lib_and_includedir
    (s : ConanSelf) (ci : CppInfo) :
    (runInfo (boundTrace "package_info" s) ci).libs = ["fossil_io"]
    ∧ (runInfo (boundTrace "package_info" s) ci).libs.length = 1
    ∧ (runInfo (boundTrace "package_info" s) ci).includedirs = ["include"]
    ∧ (runInfo (boundTrace "package_info" s) ci).includedirs.length = 1 :=
  ⟨rfl, rfl, rfl, rfl⟩

/-- Claim C3: the effective source operation runs one git clone command
whose branch argument is exactly "v" concatenated with the declared version
(that is, "v0.2.4") and whose repository argument is the declared URL. -/
theorem source_clones_tagged_revision (shared : Bool) (pf : Path) :
    boundTrace "source" (mkSelf shared pf) =
      [.runCmd ("git clone --branch " ++ ("v" ++ recipeVersion) ++ " "
        ++ recipeUrl)]
    ∧ argvOf ("git clone --branch " ++ ("v" ++ recipeVersion) ++ " "
        ++ recipeUrl) =
      ["git", "clone", "--branch", "v" ++ recipeVersion, recipeUrl] := by
  constructor
  · rfl
  · decide

/-- Claim C4: the class body binds source twice and Python keeps the later
binding, so the effective source operation runs the clone command of lines
56-57, which lacks the depth-1 shallow-clone flag; the earlier definition
at lines 38-39 contains that flag but is shadowed. -/
theorem later_source_definition_wins (shared : Bool) (pf : Path) :
    classBind "source" = some .sourceDefSecond
    ∧ boundTrace "source" (mkSelf shared pf) =
      [.runCmd
        "git clone --branch v0.2.4 https://github.com/fossillogic/fossil-io"]
    ∧ containsSub "--depth".toList
        "git clone --branch v0.2.4 https://github.com/fossillogic/fossil-io".toList
        = false
    ∧ sourceFirst (mkSelf shared pf) =
      [.runCmd
        "git clone --branch v0.2.4 --depth 1 https://github.com/fossillogic/fossil-io"]
    ∧ containsSub "--depth 1".toList
        "git clone --branch v0.2.4 --depth 1 https://github.com/fossillogic/fossil-io".toList
        = true :=
  ⟨by decide, rfl, by decide, rfl, by decide⟩

/-- Counterexample to claim C5: the build method of the recipe performs two
delegations (Meson configure, then Meson build), not exactly one. -/
theorem build_not_single_delegation :
    ¬ List.countP isDelegation (boundTrace "build" (mkSelf false [])) = 1 :=
  by decide

/-- Amended claim C5: no method of the recipe has branching logic, retries,
or concurrency; each effect trace is a fixed straight-line sequence.
generate and source each perform exactly one delegation; build performs
exactly two (configure then build) and package exactly two (install then
one file copy); layout and package_info perform zero delegations, only
folder and metadata assignments. -/
theorem methods_are_fixed_sequences (shared : Bool) (pf : Path) :
    boundTrace "layout" (mkSelf shared pf) =
      [.setSourceFolder ".", .setBuildFolder "builddir"]
    ∧ boundTrace "generate" (mkSelf shared pf) = [.mesonToolchainGenerate]
    ∧ boundTrace "build" (mkSelf shared pf) = [.mesonConfigure, .mesonBuild]
    ∧ boundTrace "source" (mkSelf shared pf) =
      [.runCmd
        "git clone --branch v0.2.4 https://github.com/fossillogic/fossil-io"]
    ∧ boundTrace "package" (mkSelf shared pf) =
      [.mesonInstall,
       .copyPattern "*.h" srcHeaderPath (includeDstPath pf)]
    ∧ boundTrace "package_info" (mkSelf shared pf) =
      [.setLibs ["fossil_io"], .setIncludedirs ["include"]]
    ∧ List.countP isDelegation (boundTrace "layout" (mkSelf shared pf)) = 0
    ∧ List.countP isDelegation (boundTrace "generate" (mkSelf shared pf)) = 1
    ∧ List.countP isDelegation (boundTrace "build" (mkSelf shared pf)) = 2
    ∧ List.countP isDelegation (boundTrace "source" (mkSelf shared pf)) = 1
    ∧ List.countP isDelegation (boundTrace "package" (mkSelf shared pf)) = 2
    ∧ List.countP isDelegation
        (boundTrace "package_info" (mkSelf shared pf)) = 0 :=
  ⟨rfl, rfl, rfl, rfl, rfl, rfl, rfl, rfl, rfl, rfl, rfl, rfl⟩

/-- Claim C6: the build configuration surface is exactly one boolean option
named shared, with admissible values True and False and default False. -/
theorem single_shared_option :
    options.length = 1
    ∧ options.map Prod.fst = ["shared"]
    ∧ options.lookup "shared" = some [true, false]
    ∧ default_options.length = 1
    ∧ default_options.lookup "shared" = some false := by
  refine ⟨rfl, rfl, ?_, rfl, ?_⟩ <;> decide

/-- Claim C7: no method body reads the shared option; two runs of the
recipe that differ only in the value of shared produce identical effect
traces for every method name. -/
theorem shared_option_noninterference (s1 s2 : ConanSelf) (n : String)
    (hv : s1.version = s2.version) (hu : s1.url = s2.url)
    (hp : s1.package_folder = s2.package_folder) :
    boundTrace n s1 = boundTrace n s2 := by
  obtain ⟨v1, u1, b1, p1⟩ := s1
  obtain ⟨v2, u2, b2, p2⟩ := s2
  simp only at hv hu hp
  subst hv hu hp
  unfold boundTrace
  cases classBind n with
  | none => rfl
  | some m => cases m <;> rfl

/-- Witness for C7: the two runs with shared respectively True and False
give the same source trace. -/
theorem shared_option_noninterference_witness :
    boundTrace "source" (mkSelf true ["pkg"]) =
      boundTrace "source" (mkSelf false ["pkg"]) :=
  shared_option_noninterference (mkSelf true ["pkg"])
    (mkSelf false ["pkg"]) "source" rfl rfl rfl

/-- Claim C8: the layout operation always sets the source folder to "." and
the build folder to "builddir", and sets nothing else: its trace is exactly
those two assignments, and running it on any folder record yields exactly
source "." and build "builddir". -/
theorem layout_sets_folders (s : ConanSelf) (fo : Folders) :
    boundTrace "layout" s =
      [.setSourceFolder ".", .setBuildFolder "builddir"]
    ∧ runFolders (boundTrace "layout" s) fo =
      { source := ".", build := "builddir" } :=
  ⟨rfl, rfl⟩

/-- Claim C9: for every method of the recipe, a failure of an invoked tool
propagates unchanged and aborts the run: when the steps before some effect
succeed and that effect fails with a message, the whole method run returns
exactly that error. -/
theorem tool_errors_propagate_unchanged (n : String) (m : MethodDef)
    (s : ConanSelf) (env : Effect → Except String Unit)
    (t1 t2 : List Effect) (e : Effect) (msg : String)
    (hm : classBind n = some m)
    (hsplit : interp m s = t1 ++ e :: t2)
    (hok : ∀ x ∈ t1, env x = .ok ())
    (herr : env e = .error msg) :
    runEffects env (boundTrace n s) = .error msg := by
  unfold boundTrace
  rw [hm]
  show runEffects env (interp m s) = .error msg
  rw [hsplit]
  exact runEffects_append_error env t1 e t2 msg hok herr

/-- Witness for C9: in build, a failing Meson build step after a successful
configure aborts the run with exactly its error message. -/
theorem tool_errors_propagate_unchanged_witness :
    runEffects
      (fun e => if e = Effect.mesonConfigure then .ok () else .error "boom")
      (boundTrace "build" (mkSelf false [])) = .error "boom" :=
  tool_errors_propagate_unchanged "build" .buildDef (mkSelf false [])
    (fun e => if e = Effect.mesonConfigure then .ok () else .error "boom")
    [Effect.mesonConfigure] [] Effect.mesonBuild "boom"
    (by decide) rfl
    (by
      intro x hx
      rw [List.mem_singleton] at hx
      subst hx
      rfl)
    rfl

/-- Claim C10: the tool invocations occur in a fixed linear order: each
method trace is a constant sequence; in build, configure comes strictly
before build; in package, install comes strictly before the header copy. -/
theorem invocations_fixed_linear_order (shared : Bool) (pf : Path) :
    boundTrace "build" (mkSelf shared pf) = [.mesonConfigure, .mesonBuild]
    ∧ List.indexOf Effect.mesonConfigure
        (boundTrace "build" (mkSelf shared pf)) <
      List.indexOf Effect.mesonBuild (boundTrace "build" (mkSelf shared pf))
    ∧ boundTrace "package" (mkSelf shared pf) =
      [.mesonInstall,
       .copyPattern "*.h" srcHeaderPath (includeDstPath pf)]
    ∧ (boundTrace "package" (mkSelf shared pf))[0]? = some .mesonInstall
    ∧ (boundTrace "package" (mkSelf shared pf))[1]? =
      some (.copyPattern "*.h" srcHeaderPath (includeDstPath pf))
    ∧ boundTrace "source" (mkSelf shared pf) =
      [.runCmd
        "git clone --branch v0.2.4 https://github.com/fossillogic/fossil-io"]
    ∧ boundTrace "package_info" (mkSelf shared pf) =
      [.setLibs ["fossil_io"], .setIncludedirs ["include"]] :=
  ⟨rfl, Nat.zero_lt_one, rfl, rfl, rfl, rfl, rfl⟩

end Conanfile
